import Mathlib

/-!
Verification of the byte-buffering core of the pcap2socks repository
(file src/cacher/mod.rs): the linear cache (Cacher) and the random
cache (RandomCacher), shallowly embedded in Lean.

Conventions of the embedding:
* Byte buffers (Vec<u8> and byte slices) are lists of natural numbers.
* u32 and u64 quantities are natural numbers; every place where the Rust
  code performs wrapping or checked machine arithmetic is modelled by the
  corresponding explicit conditional on Nat, translated expression by
  expression from the source.
* The BTreeMap of ranges is an association list sorted by key, with the
  map operations (insert replacing an existing key, remove, lookup,
  range query, ordered key iteration) defined below.
* Fallible operations (io::Result in the source) return Option: none is
  the error case, some carries the success value.
* Rust slice assignments dst[p..p+n].copy_from_slice(src) become the
  total function copyInto; at every in-bounds use this is the exact
  slice semantics.  Unchecked usize subtraction that the source performs
  in get_remaining_size is modelled by explicit wrapping modulo 2^64.
-/

/-- Initial size of cache (src const INITIAL_CACHE_SIZE). -/
def INITIAL_CACHE_SIZE : Nat := 65536

/-- Max size of cache (src const MAX_CACHE_SIZE). -/
def MAX_CACHE_SIZE : Nat := 16 * INITIAL_CACHE_SIZE

/-- Max distance of u32 values between packets (src const MAX_U32_WINDOW_SIZE). -/
def MAX_U32_WINDOW_SIZE : Nat := 4194304

/-- The value u32::MAX = 2^32 - 1, as the source spells it. -/
def U32_MAX : Nat := 4294967295

/-- 2^32, the modulus of true 32-bit wrapping arithmetic. -/
def U32_LIMIT : Nat := 4294967296

/-- 2^64, the modulus of usize arithmetic. -/
def U64_LIMIT : Nat := 18446744073709551616

/-- dst[pos .. pos + src.length] := src, the semantics of
copy_from_slice into a subslice (exact when pos + src.length ≤ dst.length,
which holds at every use the theorems below rely on). -/
def copyInto (dst : List Nat) (pos : Nat) (src : List Nat) : List Nat :=
  dst.take pos ++ src ++ dst.drop (pos + src.length)

/-- The linear cache (struct Cacher, src lines 15-21). -/
structure Cacher where
  buffer : List Nat
  sequence : Nat
  head : Nat
  size : Nat

/-- Cacher::new (src lines 25-32). -/
def Cacher.new (sequence : Nat) : Cacher :=
  { buffer := List.replicate INITIAL_CACHE_SIZE 0
    sequence := sequence
    head := 0
    size := 0 }

/-- The buffer-extension block of Cacher::append (src lines 36-60).
Returns none for the Err(cache is full) case. -/
def Cacher.extendBuf (c : Cacher) (len : Nat) : Option Cacher :=
  let size := min (max (c.buffer.length * 2) (c.buffer.length + len)) MAX_CACHE_SIZE
  if c.size + len > size then none
  else
    let new_buffer := List.replicate size 0
    let length_a := min c.size (c.buffer.length - c.head)
    let new_buffer := copyInto new_buffer 0 ((c.buffer.drop c.head).take length_a)
    let length_b := c.size - length_a
    let new_buffer :=
      if length_b > 0 then copyInto new_buffer length_a (c.buffer.take length_b)
      else new_buffer
    some { c with buffer := new_buffer, head := 0 }

/-- The tail-write block of Cacher::append (src lines 62-76). -/
def Cacher.writeTail (c : Cacher) (data : List Nat) : Cacher :=
  let length_a :=
    if c.head + c.size < c.buffer.length then
      min data.length (c.buffer.length - (c.head + c.size))
    else 0
  let b1 :=
    if c.head + c.size < c.buffer.length then
      copyInto c.buffer (c.head + c.size) (data.take length_a)
    else c.buffer
  let length_b := data.length - length_a
  let b2 := if length_b > 0 then copyInto b1 0 (data.drop length_a) else b1
  { c with buffer := b2, size := c.size + data.length }

/-- Cacher::append (src lines 35-79). -/
def Cacher.append (c : Cacher) (data : List Nat) : Option Cacher :=
  if data.length > c.buffer.length - c.size then
    match c.extendBuf data.length with
    | none => none
    | some c2 => some (c2.writeTail data)
  else some (c.writeTail data)

/-- Cacher::invalidate_to (src lines 82-96).  The local size is
sequence.checked_sub(self.sequence).unwrap_or_else(|| u32::MAX - self.sequence + sequence),
and self.size.checked_sub(size).unwrap_or(0) is truncated Nat subtraction. -/
def Cacher.invalidate_to (c : Cacher) (sequence : Nat) : Cacher :=
  let size := if c.sequence ≤ sequence then sequence - c.sequence
              else U32_MAX - c.sequence + sequence
  if size ≤ MAX_U32_WINDOW_SIZE then
    let newSize := c.size - size
    { c with sequence := sequence
             size := newSize
             head := if newSize = 0 then 0
                     else (c.head + size % c.buffer.length) % c.buffer.length }
  else c

/-- Cacher::get (src lines 99-123). -/
def Cacher.get (c : Cacher) (size : Nat) : Option (List Nat) :=
  if size = 0 then some []
  else if c.size < size then none
  else
    let vector := List.replicate size 0
    let length_a := min size (c.buffer.length - c.head)
    let vector := copyInto vector 0 ((c.buffer.drop c.head).take length_a)
    let length_b := size - length_a
    let vector := if length_b > 0 then copyInto vector length_a (c.buffer.take length_b)
                  else vector
    some vector

/-- Cacher::get_sequence (src lines 131-133). -/
def Cacher.get_sequence (c : Cacher) : Nat := c.sequence

/-- Cacher::get_size (src lines 136-138). -/
def Cacher.get_size (c : Cacher) : Nat := c.size

/-- Cacher::get_all (src lines 126-128). -/
def Cacher.get_all (c : Cacher) : Option (List Nat) := c.get c.get_size

/-- Sorted-association-list model of BTreeMap::insert: replaces the value
if the key is present, otherwise inserts keeping keys sorted. -/
def rangesInsert : List (Nat × Nat) → Nat → Nat → List (Nat × Nat)
  | [], k, v => [(k, v)]
  | (k1, v1) :: rest, k, v =>
    if k < k1 then (k, v) :: (k1, v1) :: rest
    else if k = k1 then (k, v) :: rest
    else (k1, v1) :: rangesInsert rest k v

/-- Sorted-association-list model of BTreeMap::remove (keys are unique). -/
def rangesRemove : List (Nat × Nat) → Nat → List (Nat × Nat)
  | [], _ => []
  | (k1, v1) :: rest, k => if k = k1 then rest else (k1, v1) :: rangesRemove rest k

/-- Sorted-association-list model of BTreeMap::get. -/
def rangesGet : List (Nat × Nat) → Nat → Option Nat
  | [], _ => none
  | (k1, v1) :: rest, k => if k = k1 then some v1 else rangesGet rest k

/-- The random cache (struct RandomCacher, src lines 142-151). -/
structure RandomCacher where
  buffer : List Nat
  sequence : Nat
  head : Nat
  size : Nat
  ranges : List (Nat × Nat)

/-- RandomCacher::new (src lines 155-163). -/
def RandomCacher.new (sequence : Nat) : RandomCacher :=
  { buffer := List.replicate INITIAL_CACHE_SIZE 0
    sequence := sequence
    head := 0
    size := 0
    ranges := [] }

/-- The buffer-extension block of RandomCacher::append (src lines 176-197).
size0 is the local size = sub_sequence + buffer.len() of line 175; len is
buffer.len().  none is the Err(cache is full) case. -/
def RandomCacher.extendBuf (rc : RandomCacher) (size0 len : Nat) : Option RandomCacher :=
  if size0 > rc.buffer.length then
    let size := min (max (rc.buffer.length * 2) size0) MAX_CACHE_SIZE
    if rc.buffer.length + len > size then none
    else
      let new_buffer := List.replicate size 0
      let new_buffer := copyInto new_buffer 0 (rc.buffer.drop rc.head)
      let new_buffer :=
        if rc.head > 0 then
          copyInto new_buffer (rc.buffer.length - rc.head) (rc.buffer.take rc.head)
        else new_buffer
      some { rc with buffer := new_buffer, head := 0 }
  else some rc

/-- The write block of RandomCacher::append (src lines 199-212). -/
def RandomCacher.writeAt (rc : RandomCacher) (sub_sequence : Nat) (data : List Nat) :
    RandomCacher :=
  let length_a :=
    if rc.buffer.length - rc.head > sub_sequence then
      min (rc.buffer.length - rc.head - sub_sequence) data.length
    else 0
  let b1 :=
    if rc.buffer.length - rc.head > sub_sequence then
      copyInto rc.buffer (rc.head + sub_sequence) (data.take length_a)
    else rc.buffer
  let length_b := data.length - length_a
  let b2 := if length_b > 0 then copyInto b1 0 (data.drop length_a) else b1
  { rc with buffer := b2 }

/-- The size-update block of RandomCacher::append (src lines 214-227).
tail, record_tail and sub_tail translate the checked_add/checked_sub plus
unwrap_or_else compensation expressions of the source; the "as u32" cast
of self.size is the explicit % U32_LIMIT. -/
def RandomCacher.updateSize (rc : RandomCacher) (sequence len : Nat) : RandomCacher :=
  let tail := if sequence + len ≤ U32_MAX then sequence + len
              else len - (U32_MAX - sequence)
  let record_tail := if rc.sequence + rc.size % U32_LIMIT ≤ U32_MAX then
                       rc.sequence + rc.size % U32_LIMIT
                     else rc.size % U32_LIMIT - (U32_MAX - rc.sequence)
  let sub_tail := if record_tail ≤ tail then tail - record_tail
                  else tail + (U32_MAX - record_tail)
  if sub_tail ≤ MAX_U32_WINDOW_SIZE then { rc with size := rc.size + sub_tail } else rc

/-- The insert-and-merge block of RandomCacher::append (src lines 229-272).
baseSeq is self.sequence; sequence and len describe the incoming write.
The source also computes a local end = max over the selected ranges of
key + value, but never uses it afterwards; it is omitted here because it
has no effect on the state. -/
def mergeRanges (ranges : List (Nat × Nat)) (baseSeq sequence len : Nat) :
    List (Nat × Nat) :=
  let seqKey := if sequence < baseSeq then sequence + U32_MAX else sequence
  let popKeys := (ranges.filter (fun p => seqKey ≤ p.1 ∧ p.1 ≤ seqKey + len)).map Prod.fst
  let r1 := popKeys.foldl rangesRemove ranges
  let prev_key := (r1.map Prod.fst).foldl (fun acc k => if k < seqKey then some k else acc) none
  match prev_key with
  | some pk =>
    let prev_size := (rangesGet r1 pk).getD 0
    if seqKey ≤ pk + prev_size then rangesInsert r1 pk (len + (seqKey - pk))
    else rangesInsert r1 seqKey len
  | none => rangesInsert r1 seqKey len

/-- The pop block of RandomCacher::append (src lines 274-311).  The source
unwraps the first key; ranges is nonempty at the call site (a range was
just inserted), and the none branch here is unreachable there. -/
def RandomCacher.popReady (rc : RandomCacher) : Option (List Nat) × RandomCacher :=
  match (rc.ranges.map Prod.fst).head? with
  | none => (none, rc)
  | some first_key =>
    if first_key % U32_LIMIT = rc.sequence then
      let size := (rangesGet rc.ranges first_key).getD 0
      let r1 := rangesRemove rc.ranges first_key
      let r2 := if U32_MAX - rc.sequence < size then
                  r1.map (fun p => (p.1 - U32_MAX, p.2))
                else r1
      let length_a := min size (rc.buffer.length - rc.head)
      let vector := copyInto (List.replicate size 0) 0 ((rc.buffer.drop rc.head).take length_a)
      let length_b := size - length_a
      let vector := if length_b > 0 then copyInto vector length_a (rc.buffer.take length_b)
                    else vector
      let newSeq := if rc.sequence + size % U32_LIMIT ≤ U32_MAX then
                      rc.sequence + size % U32_LIMIT
                    else size % U32_LIMIT - (U32_MAX - rc.sequence)
      (some vector,
       { rc with sequence := newSeq
                 head := (rc.head + size % rc.buffer.length) % rc.buffer.length
                 size := rc.size - vector.length
                 ranges := r2 })
    else (none, rc)

/-- RandomCacher::append (src lines 166-312).  The result is none for the
Err case, and otherwise carries the released bytes (if any) and the new
state.  sub_sequence is the compensation expression of lines 167-170. -/
def RandomCacher.append (rc : RandomCacher) (sequence : Nat) (data : List Nat) :
    Option (Option (List Nat) × RandomCacher) :=
  let sub_sequence := if rc.sequence ≤ sequence then sequence - rc.sequence
                      else sequence + (U32_MAX - rc.sequence)
  if sub_sequence > MAX_U32_WINDOW_SIZE then some (none, rc)
  else
    match rc.extendBuf (sub_sequence + data.length) data.length with
    | none => none
    | some st1 =>
      let st2 := st1.writeAt sub_sequence data
      let st3 := st2.updateSize sequence data.length
      let st4 := { st3 with ranges := mergeRanges st3.ranges st3.sequence sequence data.length }
      some st4.popReady

/-- RandomCacher::get_sequence (src lines 315-317). -/
def RandomCacher.get_sequence (rc : RandomCacher) : Nat := rc.sequence

/-- RandomCacher::get_remaining_size (src lines 320-326).  The source
subtracts self.size from self.buffer.len() on usize without a check; the
wrapping difference modulo 2^64 is written out explicitly. -/
def RandomCacher.get_remaining_size (rc : RandomCacher) : Nat :=
  let diff := (rc.buffer.length + (U64_LIMIT - rc.size % U64_LIMIT)) % U64_LIMIT
  if diff > 65535 then 65535 else diff

/-! ## Basic lemmas about the embedding -/

theorem copyInto_zero (dst src : List Nat) :
    copyInto dst 0 src = src ++ dst.drop src.length := by
  simp [copyInto]

theorem length_copyInto (dst src : List Nat) (pos : Nat)
    (h : pos + src.length ≤ dst.length) :
    (copyInto dst pos src).length = dst.length := by
  simp only [copyInto, List.length_append, List.length_take, List.length_drop]
  omega

/-- The bytes currently held by a linear cache, read as the ring contents
from head, wrapping once past the end of the array. -/
def heldBytes (c : Cacher) : List Nat :=
  ((c.buffer.drop c.head) ++ c.buffer.take c.head).take c.size

/-! ## Claim C7: stale inputs are silent no-ops -/

/-- C7: for every cache state, Cacher::invalidate_to with a sequence whose
computed distance from the base exceeds the acceptance window leaves the
state unchanged, and RandomCacher::append with such a sequence returns
success with no released bytes and an unchanged state. -/
theorem c7_stale_noop :
    (∀ (c : Cacher) (s : Nat),
        (if c.sequence ≤ s then s - c.sequence else U32_MAX - c.sequence + s) >
            MAX_U32_WINDOW_SIZE →
          c.invalidate_to s = c) ∧
    (∀ (rc : RandomCacher) (s : Nat) (data : List Nat),
        (if rc.sequence ≤ s then s - rc.sequence else s + (U32_MAX - rc.sequence)) >
            MAX_U32_WINDOW_SIZE →
          rc.append s data = some (none, rc)) := by
  constructor
  · intro c s h
    simp only [Cacher.invalidate_to]
    rw [if_neg (Nat.not_le.mpr h)]
  · intro rc s data h
    simp only [RandomCacher.append]
    rw [if_pos h]

/-- Witness for C7 at concrete inputs: a fresh cache with base 0 receives
sequence 5000000, whose distance 5000000 exceeds the window 4194304. -/
theorem c7_stale_noop_witness :
    (Cacher.new 0).invalidate_to 5000000 = Cacher.new 0 ∧
      (RandomCacher.new 0).append 5000000 [1] = some (none, RandomCacher.new 0) := by
  constructor
  · exact c7_stale_noop.1 (Cacher.new 0) 5000000 (by norm_num [Cacher.new, MAX_U32_WINDOW_SIZE])
  · exact c7_stale_noop.2 (RandomCacher.new 0) 5000000 [1]
      (by norm_num [RandomCacher.new, MAX_U32_WINDOW_SIZE])

/-! ## Claim C6: invalidate_to postconditions -/

/-- C6 (amended): for every cache state and sequence s, with d the distance
the code computes (s - base when s >= base, otherwise
u32::MAX - base + s, one less than the true difference modulo 2^32),
if d is within the acceptance window then invalidate_to sets the base
sequence to s, the new size to the truncated difference size - d, the head
to 0 when the new size is 0 and to (head + d) mod capacity otherwise, and
leaves buffer and capacity unchanged. -/
theorem c6_invalidate_to_amended (c : Cacher) (s d : Nat)
    (hd : d = if c.sequence ≤ s then s - c.sequence else U32_MAX - c.sequence + s)
    (h : d ≤ MAX_U32_WINDOW_SIZE) :
    (c.invalidate_to s).sequence = s ∧
    (c.invalidate_to s).buffer = c.buffer ∧
    (c.invalidate_to s).size = c.size - d ∧
    (c.invalidate_to s).head =
      (if c.size - d = 0 then 0 else (c.head + d) % c.buffer.length) := by
  simp only [Cacher.invalidate_to]
  rw [← hd, if_pos h]
  refine ⟨rfl, rfl, rfl, ?_⟩
  split
  · rfl
  · rw [Nat.add_mod_mod]

/-- Witness for C6 at a concrete input: base 10, invalidate to 12, d = 2. -/
theorem c6_invalidate_to_witness :
    ((Cacher.new 10).invalidate_to 12).sequence = 12 ∧
      ((Cacher.new 10).invalidate_to 12).buffer = (Cacher.new 10).buffer ∧
      ((Cacher.new 10).invalidate_to 12).size = (Cacher.new 10).size - 2 ∧
      ((Cacher.new 10).invalidate_to 12).head =
        (if (Cacher.new 10).size - 2 = 0 then 0
         else ((Cacher.new 10).head + 2) % (Cacher.new 10).buffer.length) :=
  c6_invalidate_to_amended (Cacher.new 10) 12 2
    (by norm_num [Cacher.new]) (by norm_num [MAX_U32_WINDOW_SIZE])

/-- Appending to a fresh (empty, head 0) linear cache whose buffer has the
initial capacity writes the data at the front of the ring. -/
theorem Cacher.append_fresh (B : List Nat) (s : Nat) (data : List Nat)
    (hB : B.length = 65536) (hd : data.length ≤ 65536) :
    (Cacher.mk B s 0 0).append data =
      some (Cacher.mk (data ++ B.drop data.length) s 0 data.length) := by
  have hmin : min data.length 65536 = data.length := by omega
  have hcond : ¬ (data.length > 65536 - 0) := by omega
  simp [Cacher.append, Cacher.writeTail, copyInto, hB, hmin, hcond]


/-! ## Claim C3: wraparound distance arithmetic -/

/-- C3 (code bug): the claim says the computed distance is exactly
(s - base) mod 2^32 also when s has wrapped past zero.  At base
u32::MAX with s = 0 the true distance modulo 2^32 is 1, so a cache
holding 5 bytes would have to shrink to 4 on invalidate_to(0); the code
computes u32::MAX - base + s = 0 in the wrap branch (one less than the
true value) and leaves the size at 5. -/
theorem c3_wrap_arith_code_bug :
    (((Cacher.new 4294967295).append [1, 2, 3, 4, 5]).map
        (fun c => ((c.invalidate_to 0).sequence, (c.invalidate_to 0).size)))
      = some (0, 5) ∧
    (0 + U32_LIMIT - 4294967295) % U32_LIMIT = 1 ∧ (5 : Nat) ≠ 5 - 1 := by
  refine ⟨?_, by norm_num [U32_LIMIT], by norm_num⟩
  have key : ∀ B : List Nat, B.length = 65536 →
      (((Cacher.mk B 4294967295 0 0).append [1, 2, 3, 4, 5]).map
        (fun c => ((c.invalidate_to 0).sequence, (c.invalidate_to 0).size)))
        = some (0, 5) := by
    intro B hB
    rw [Cacher.append_fresh B _ _ hB (by norm_num)]
    simp [Cacher.invalidate_to, U32_MAX, MAX_U32_WINDOW_SIZE, hB]
  exact key _ (List.length_replicate ..)

/-- C6 counterexample: at base u32::MAX with 6 bytes held, the true
distance of s = 1 modulo 2^32 is 2 (within the window), so the claim
predicts a new size of 6 - 2 = 4; the code computes distance 1 and
leaves size 5. -/
theorem c6_counterexample :
    (((Cacher.new 4294967295).append [1, 2, 3, 4, 5, 6]).map
        (fun c => ((c.invalidate_to 1).sequence, (c.invalidate_to 1).size)))
      = some (1, 5) ∧
    (1 + U32_LIMIT - 4294967295) % U32_LIMIT = 2 ∧
    (1 + U32_LIMIT - 4294967295) % U32_LIMIT ≤ MAX_U32_WINDOW_SIZE ∧
    (5 : Nat) ≠ 6 - 2 := by
  refine ⟨?_, by norm_num [U32_LIMIT],
    by norm_num [U32_LIMIT, MAX_U32_WINDOW_SIZE], by norm_num⟩
  have key : ∀ B : List Nat, B.length = 65536 →
      (((Cacher.mk B 4294967295 0 0).append [1, 2, 3, 4, 5, 6]).map
        (fun c => ((c.invalidate_to 1).sequence, (c.invalidate_to 1).size)))
        = some (1, 5) := by
    intro B hB
    rw [Cacher.append_fresh B _ _ hB (by norm_num)]
    simp [Cacher.invalidate_to, U32_MAX, MAX_U32_WINDOW_SIZE, hB]
  exact key _ (List.length_replicate ..)

/-! ## Step lemmas for evaluating RandomCacher.append runs -/

theorem RandomCacher.append_unfold (rc : RandomCacher) (s : Nat) (data : List Nat) (sub : Nat)
    (hsub : (if rc.sequence ≤ s then s - rc.sequence else s + (U32_MAX - rc.sequence)) = sub)
    (h : ¬ sub > MAX_U32_WINDOW_SIZE) :
    rc.append s data =
      (rc.extendBuf (sub + data.length) data.length).map
        (fun st1 =>
          (let st3 := (st1.writeAt sub data).updateSize s data.length
           { st3 with ranges := mergeRanges st3.ranges st3.sequence s data.length }).popReady) := by
  simp only [RandomCacher.append, hsub]
  rw [if_neg h]
  cases h2 : rc.extendBuf (sub + data.length) data.length <;> simp

theorem RandomCacher.extendBuf_noGrow (rc : RandomCacher) (size0 len : Nat)
    (h : ¬ size0 > rc.buffer.length) : rc.extendBuf size0 len = some rc := by
  simp only [RandomCacher.extendBuf]
  rw [if_neg h]

theorem RandomCacher.extendBuf_grow_head0 (rc : RandomCacher) (size0 len : Nat)
    (h0 : rc.head = 0) (h1 : size0 > rc.buffer.length)
    (h2 : ¬ rc.buffer.length + len >
        min (max (rc.buffer.length * 2) size0) MAX_CACHE_SIZE) :
    rc.extendBuf size0 len =
      some { rc with
        buffer := rc.buffer ++
          (List.replicate (min (max (rc.buffer.length * 2) size0) MAX_CACHE_SIZE) 0).drop
            rc.buffer.length
        head := 0 } := by
  simp only [RandomCacher.extendBuf]
  rw [if_pos h1, if_neg h2, h0]
  simp [copyInto]

theorem RandomCacher.writeAt_far (rc : RandomCacher) (sub : Nat) (data : List Nat)
    (h : ¬ (rc.buffer.length - rc.head > sub)) (hd : 0 < data.length) :
    rc.writeAt sub data = { rc with buffer := data ++ rc.buffer.drop data.length } := by
  simp only [RandomCacher.writeAt]
  rw [if_neg h, if_neg h]
  simp [copyInto, Nat.sub_zero, hd]

theorem RandomCacher.writeAt_fits (rc : RandomCacher) (sub : Nat) (data : List Nat)
    (h : rc.buffer.length - rc.head > sub)
    (hlen : data.length ≤ rc.buffer.length - rc.head - sub) :
    rc.writeAt sub data = { rc with buffer := copyInto rc.buffer (rc.head + sub) data } := by
  simp only [RandomCacher.writeAt]
  rw [if_pos h, if_pos h]
  have hmin : min (rc.buffer.length - rc.head - sub) data.length = data.length := by omega
  rw [hmin, List.take_length]
  simp

/-! ## Claim C2: range merge bookkeeping -/

/-- C2 (code bug): the claim says merging folds the new interval with every
overlapping or abutting range into one interval whose length is the
furthest end minus the smallest start.  After append(2, 3 bytes) the map
holds the interval (2, 3) covering sequences 2..5; a further append(3, 1
byte) lies inside it, so the merged interval must again be (2, 3); the
code inserts (2, 2) instead (it never uses the computed furthest end),
silently dropping the tracked byte at sequence 4. -/
theorem c2_merge_code_bug :
    (((RandomCacher.new 0).append 2 [98, 99, 100]).bind
        (fun r => (r.2.append 3 [120]).map (fun r2 => (r2.1, r2.2.ranges))))
      = some (none, [(2, 2)]) ∧ ((2, 2) : Nat × Nat) ≠ (2, 3) := by
  refine ⟨?_, by norm_num⟩
  have s1 : ∀ B : List Nat, B.length = 65536 →
      (RandomCacher.mk B 0 0 0 []).append 2 [98, 99, 100] =
        some (none, RandomCacher.mk (copyInto B 2 [98, 99, 100]) 0 0 5 [(2, 3)]) := by
    intro B hB
    have t_write : (RandomCacher.mk B 0 0 0 []).writeAt 2 [98, 99, 100] =
        RandomCacher.mk (copyInto B 2 [98, 99, 100]) 0 0 0 [] := by
      simp [RandomCacher.writeAt, copyInto, hB]
    have t_upd : ∀ B2 : List Nat, (RandomCacher.mk B2 0 0 0 []).updateSize 2 3 =
        RandomCacher.mk B2 0 0 5 [] := by
      intro B2
      simp [RandomCacher.updateSize, U32_MAX, U32_LIMIT, MAX_U32_WINDOW_SIZE]
    have t_merge : mergeRanges [] 0 2 3 = [(2, 3)] := by
      simp [mergeRanges, rangesInsert, U32_MAX]
    have t_pop : ∀ B2 : List Nat, (RandomCacher.mk B2 0 0 5 [(2, 3)]).popReady =
        (none, RandomCacher.mk B2 0 0 5 [(2, 3)]) := by
      intro B2
      simp [RandomCacher.popReady, U32_LIMIT]
    rw [RandomCacher.append_unfold _ _ _ 2 (by norm_num) (by norm_num [MAX_U32_WINDOW_SIZE])]
    simp only [List.length_cons, List.length_nil, Nat.reduceAdd]
    rw [RandomCacher.extendBuf_noGrow _ _ _ (by simp [hB]), Option.map_some']
    rw [t_write, t_upd]
    dsimp only
    rw [t_merge, t_pop]
  have s2 : ∀ B : List Nat, B.length = 65536 →
      (RandomCacher.mk B 0 0 5 [(2, 3)]).append 3 [120] =
        some (none, RandomCacher.mk (copyInto B 3 [120]) 0 0 5 [(2, 2)]) := by
    intro B hB
    have t_write : (RandomCacher.mk B 0 0 5 [(2, 3)]).writeAt 3 [120] =
        RandomCacher.mk (copyInto B 3 [120]) 0 0 5 [(2, 3)] := by
      simp [RandomCacher.writeAt, copyInto, hB]
    have t_upd : ∀ B2 : List Nat, (RandomCacher.mk B2 0 0 5 [(2, 3)]).updateSize 3 1 =
        RandomCacher.mk B2 0 0 5 [(2, 3)] := by
      intro B2
      simp [RandomCacher.updateSize, U32_MAX, U32_LIMIT, MAX_U32_WINDOW_SIZE]
    have t_merge : mergeRanges [(2, 3)] 0 3 1 = [(2, 2)] := by
      simp [mergeRanges, rangesInsert, rangesRemove, rangesGet, U32_MAX]
    have t_pop : ∀ B2 : List Nat, (RandomCacher.mk B2 0 0 5 [(2, 2)]).popReady =
        (none, RandomCacher.mk B2 0 0 5 [(2, 2)]) := by
      intro B2
      simp [RandomCacher.popReady, U32_LIMIT]
    rw [RandomCacher.append_unfold _ _ _ 3 (by norm_num) (by norm_num [MAX_U32_WINDOW_SIZE])]
    simp only [List.length_cons, List.length_nil, Nat.reduceAdd]
    rw [RandomCacher.extendBuf_noGrow _ _ _ (by simp [hB]), Option.map_some']
    rw [t_write, t_upd]
    dsimp only
    rw [t_merge, t_pop]
  have key : ∀ B : List Nat, B.length = 65536 →
      (((RandomCacher.mk B 0 0 0 []).append 2 [98, 99, 100]).bind
        (fun r => (r.2.append 3 [120]).map (fun r2 => (r2.1, r2.2.ranges))))
        = some (none, [(2, 2)]) := by
    intro B hB
    have hlen : (copyInto B 2 [98, 99, 100]).length = 65536 :=
      (length_copyInto B [98, 99, 100] 2 (by simp [hB])).trans hB
    rw [s1 B hB, Option.some_bind, s2 _ hlen, Option.map_some']
  exact key _ (List.length_replicate ..)

/-! ## Claim C1: reordering stream release -/

/-- C1 (code bug): the claim includes the concrete scenario create(0);
append(5, "world") returns nothing; append(0, "hello") returns
"helloworld" and leaves getSequence() = 10.  In the code the merge step
inserts the interval (0, 5) instead of (0, 10) (the computed furthest end
is never used), so the second append releases only "hello" and leaves the
release point at 5; the bytes of "world" stay stranded behind an empty
range map. -/
theorem c1_reordering_release_code_bug :
    (((RandomCacher.new 0).append 5 [119, 111, 114, 108, 100]).bind
        (fun r => (r.2.append 0 [104, 101, 108, 108, 111]).map
          (fun r2 => (r2.1, r2.2.get_sequence))))
      = some (some [104, 101, 108, 108, 111], 5) ∧
    some [104, 101, 108, 108, 111] ≠
      some ([104, 101, 108, 108, 111] ++ [119, 111, 114, 108, 100]) ∧
    (5 : Nat) ≠ (0 + 10) % U32_LIMIT := by
  refine ⟨?_, by simp, by norm_num [U32_LIMIT]⟩
  have s1 : ∀ B : List Nat, B.length = 65536 →
      (RandomCacher.mk B 0 0 0 []).append 5 [119, 111, 114, 108, 100] =
        some (none, RandomCacher.mk (copyInto B 5 [119, 111, 114, 108, 100]) 0 0 10 [(5, 5)]) := by
    intro B hB
    have t_write : (RandomCacher.mk B 0 0 0 []).writeAt 5 [119, 111, 114, 108, 100] =
        RandomCacher.mk (copyInto B 5 [119, 111, 114, 108, 100]) 0 0 0 [] := by
      simp [RandomCacher.writeAt, copyInto, hB]
    have t_upd : ∀ B2 : List Nat, (RandomCacher.mk B2 0 0 0 []).updateSize 5 5 =
        RandomCacher.mk B2 0 0 10 [] := by
      intro B2
      simp [RandomCacher.updateSize, U32_MAX, U32_LIMIT, MAX_U32_WINDOW_SIZE]
    have t_merge : mergeRanges [] 0 5 5 = [(5, 5)] := by
      simp [mergeRanges, rangesInsert, U32_MAX]
    have t_pop : ∀ B2 : List Nat, (RandomCacher.mk B2 0 0 10 [(5, 5)]).popReady =
        (none, RandomCacher.mk B2 0 0 10 [(5, 5)]) := by
      intro B2
      simp [RandomCacher.popReady, U32_LIMIT]
    rw [RandomCacher.append_unfold _ _ _ 5 (by norm_num) (by norm_num [MAX_U32_WINDOW_SIZE])]
    simp only [List.length_cons, List.length_nil, Nat.reduceAdd]
    rw [RandomCacher.extendBuf_noGrow _ _ _ (by simp [hB]), Option.map_some']
    rw [t_write, t_upd]
    dsimp only
    rw [t_merge, t_pop]
  have s2 : ∀ B : List Nat, B.length = 65536 →
      (RandomCacher.mk B 0 0 10 [(5, 5)]).append 0 [104, 101, 108, 108, 111] =
        some (some [104, 101, 108, 108, 111],
          RandomCacher.mk (copyInto B 0 [104, 101, 108, 108, 111]) 5 5 5 []) := by
    intro B hB
    have t_write : (RandomCacher.mk B 0 0 10 [(5, 5)]).writeAt 0 [104, 101, 108, 108, 111] =
        RandomCacher.mk (copyInto B 0 [104, 101, 108, 108, 111]) 0 0 10 [(5, 5)] := by
      simp [RandomCacher.writeAt, copyInto, hB]
    have t_upd : ∀ B2 : List Nat, (RandomCacher.mk B2 0 0 10 [(5, 5)]).updateSize 0 5 =
        RandomCacher.mk B2 0 0 10 [(5, 5)] := by
      intro B2
      simp [RandomCacher.updateSize, U32_MAX, U32_LIMIT, MAX_U32_WINDOW_SIZE]
    have t_merge : mergeRanges [(5, 5)] 0 0 5 = [(0, 5)] := by
      simp [mergeRanges, rangesInsert, rangesRemove, rangesGet, U32_MAX]
    have t_pop : ∀ B1 : List Nat, B1.length = 65536 →
        (RandomCacher.mk (copyInto B1 0 [104, 101, 108, 108, 111]) 0 0 10 [(0, 5)]).popReady =
          (some [104, 101, 108, 108, 111],
           RandomCacher.mk (copyInto B1 0 [104, 101, 108, 108, 111]) 5 5 5 []) := by
      intro B1 hB1
      simp [RandomCacher.popReady, rangesGet, rangesRemove, copyInto, U32_MAX, U32_LIMIT, hB1]
    rw [RandomCacher.append_unfold _ _ _ 0 (by norm_num) (by norm_num [MAX_U32_WINDOW_SIZE])]
    simp only [List.length_cons, List.length_nil, Nat.reduceAdd]
    rw [RandomCacher.extendBuf_noGrow _ _ _ (by simp [hB]), Option.map_some']
    rw [t_write, t_upd]
    dsimp only
    rw [t_merge, t_pop _ hB]
  have key : ∀ B : List Nat, B.length = 65536 →
      (((RandomCacher.mk B 0 0 0 []).append 5 [119, 111, 114, 108, 100]).bind
        (fun r => (r.2.append 0 [104, 101, 108, 108, 111]).map
          (fun r2 => (r2.1, r2.2.get_sequence))))
        = some (some [104, 101, 108, 108, 111], 5) := by
    intro B hB
    have hlen : (copyInto B 5 [119, 111, 114, 108, 100]).length = 65536 :=
      (length_copyInto B [119, 111, 114, 108, 100] 5 (by simp [hB])).trans hB
    rw [s1 B hB, Option.some_bind, s2 _ hlen, Option.map_some']
    simp [RandomCacher.get_sequence]
  exact key _ (List.length_replicate ..)

/-! ## Claim C4: reordering capacity and write position -/

/-- C4 (code bug): the claim says append either fails with the capacity
error or ends with capacity at least offset + len and the bytes at ring
position (head + offset) mod capacity.  With offset 2000000 (inside the
window) and one byte, growth caps the capacity at 1048576 < 2000001, yet
the error check compares old capacity + len instead, so the call
succeeds, and the byte is written at index 0 instead of position
(0 + 2000000) mod 1048576 = 951424. -/
theorem c4_capacity_write_code_bug :
    (((RandomCacher.new 0).append 2000000 [42]).map
        (fun r => (r.1, r.2.buffer.length, r.2.buffer.head?)))
      = some (none, 1048576, some 42) ∧
    1048576 < 2000000 + 1 ∧ (0 + 2000000) % 1048576 ≠ 0 := by
  refine ⟨?_, by norm_num, by norm_num⟩
  have key : ∀ B : List Nat, B.length = 65536 →
      (((RandomCacher.mk B 0 0 0 []).append 2000000 [42]).map
        (fun r => (r.1, r.2.buffer.length, r.2.buffer.head?)))
        = some (none, 1048576, some 42) := by
    intro B hB
    have t_ext : (RandomCacher.mk B 0 0 0 []).extendBuf 2000001 1 =
        some (RandomCacher.mk (B ++ List.replicate 983040 0) 0 0 0 []) := by
      rw [RandomCacher.extendBuf_grow_head0 (RandomCacher.mk B 0 0 0 []) 2000001 1 rfl
        (by simp [hB]) (by simp [hB, MAX_CACHE_SIZE, INITIAL_CACHE_SIZE])]
      simp [-List.reduceReplicate, hB, MAX_CACHE_SIZE, INITIAL_CACHE_SIZE]
    have t_write : (RandomCacher.mk (B ++ List.replicate 983040 0) 0 0 0 []).writeAt
          2000000 [42] =
        RandomCacher.mk ([42] ++ (B ++ List.replicate 983040 0).drop 1) 0 0 0 [] := by
      have h := RandomCacher.writeAt_far
        (RandomCacher.mk (B ++ List.replicate 983040 0) 0 0 0 [])
        2000000 [42] (by simp [-List.reduceReplicate, hB]) (by norm_num)
      simpa [-List.reduceReplicate] using h
    have t_upd : ∀ B2 : List Nat, (RandomCacher.mk B2 0 0 0 []).updateSize 2000000 1 =
        RandomCacher.mk B2 0 0 2000001 [] := by
      intro B2
      simp [RandomCacher.updateSize, U32_MAX, U32_LIMIT, MAX_U32_WINDOW_SIZE]
    have t_merge : mergeRanges [] 0 2000000 1 = [(2000000, 1)] := by
      simp [mergeRanges, rangesInsert, U32_MAX]
    have t_pop : ∀ B2 : List Nat, (RandomCacher.mk B2 0 0 2000001 [(2000000, 1)]).popReady =
        (none, RandomCacher.mk B2 0 0 2000001 [(2000000, 1)]) := by
      intro B2
      simp [RandomCacher.popReady, U32_LIMIT]
    rw [RandomCacher.append_unfold _ _ _ 2000000 (by norm_num)
      (by norm_num [MAX_U32_WINDOW_SIZE])]
    simp only [List.length_cons, List.length_nil, Nat.reduceAdd]
    rw [t_ext, Option.map_some']
    rw [t_write, t_upd]
    dsimp only
    rw [t_merge, t_pop]
    simp [-List.reduceReplicate, hB]
  exact key _ (List.length_replicate ..)

/-! ## Claim C9: totality and unchecked arithmetic -/

/-- C9 (code bug): the claim says the subtraction in get_remaining_size
never underflows.  One in-window append at offset 3000000 drives the
tracked span size to 3000001 while the capacity is capped at 1048576, so
buffer.len() - size underflows in the source (panic under overflow
checks, wraparound to a huge value otherwise); the model makes the
wrapping explicit and the saturated 65535 it returns bears no relation
to the true (negative) free space. -/
theorem c9_remaining_size_underflow :
    (((RandomCacher.new 0).append 3000000 [7]).map
        (fun r => (r.2.size, r.2.buffer.length, r.2.get_remaining_size)))
      = some (3000001, 1048576, 65535) ∧ 1048576 < 3000001 := by
  refine ⟨?_, by norm_num⟩
  have key : ∀ B : List Nat, B.length = 65536 →
      (((RandomCacher.mk B 0 0 0 []).append 3000000 [7]).map
        (fun r => (r.2.size, r.2.buffer.length, r.2.get_remaining_size)))
        = some (3000001, 1048576, 65535) := by
    intro B hB
    have t_ext : (RandomCacher.mk B 0 0 0 []).extendBuf 3000001 1 =
        some (RandomCacher.mk (B ++ List.replicate 983040 0) 0 0 0 []) := by
      rw [RandomCacher.extendBuf_grow_head0 (RandomCacher.mk B 0 0 0 []) 3000001 1 rfl
        (by simp [hB]) (by simp [hB, MAX_CACHE_SIZE, INITIAL_CACHE_SIZE])]
      simp [-List.reduceReplicate, hB, MAX_CACHE_SIZE, INITIAL_CACHE_SIZE]
    have t_write : (RandomCacher.mk (B ++ List.replicate 983040 0) 0 0 0 []).writeAt
          3000000 [7] =
        RandomCacher.mk ([7] ++ (B ++ List.replicate 983040 0).drop 1) 0 0 0 [] := by
      have h := RandomCacher.writeAt_far
        (RandomCacher.mk (B ++ List.replicate 983040 0) 0 0 0 [])
        3000000 [7] (by simp [-List.reduceReplicate, hB]) (by norm_num)
      simpa [-List.reduceReplicate] using h
    have t_upd : ∀ B2 : List Nat, (RandomCacher.mk B2 0 0 0 []).updateSize 3000000 1 =
        RandomCacher.mk B2 0 0 3000001 [] := by
      intro B2
      simp [RandomCacher.updateSize, U32_MAX, U32_LIMIT, MAX_U32_WINDOW_SIZE]
    have t_merge : mergeRanges [] 0 3000000 1 = [(3000000, 1)] := by
      simp [mergeRanges, rangesInsert, U32_MAX]
    have t_pop : ∀ B2 : List Nat, (RandomCacher.mk B2 0 0 3000001 [(3000000, 1)]).popReady =
        (none, RandomCacher.mk B2 0 0 3000001 [(3000000, 1)]) := by
      intro B2
      simp [RandomCacher.popReady, U32_LIMIT]
    rw [RandomCacher.append_unfold _ _ _ 3000000 (by norm_num)
      (by norm_num [MAX_U32_WINDOW_SIZE])]
    simp only [List.length_cons, List.length_nil, Nat.reduceAdd]
    rw [t_ext, Option.map_some']
    rw [t_write, t_upd]
    dsimp only
    rw [t_merge, t_pop]
    have hlen2 : ([7] ++ (B ++ List.replicate 983040 0).drop 1).length = 1048576 := by
      simp [-List.reduceReplicate, hB]
    simp only [RandomCacher.get_remaining_size, hlen2, Option.map_some']
    norm_num [U64_LIMIT]
  exact key _ (List.length_replicate ..)

/-! ## Claim C10: span size never exceeds capacity -/

/-- C10 (code bug): the claimed invariant size ≤ capacity fails on a
reachable state: one in-window append at offset 2500000 leaves
size = 2500001 while the capacity is capped at 1048576. -/
theorem c10_size_invariant_violated :
    (((RandomCacher.new 0).append 2500000 [9]).map
        (fun r => (r.2.size, r.2.buffer.length)))
      = some (2500001, 1048576) ∧ ¬ (2500001 ≤ 1048576) := by
  refine ⟨?_, by norm_num⟩
  have key : ∀ B : List Nat, B.length = 65536 →
      (((RandomCacher.mk B 0 0 0 []).append 2500000 [9]).map
        (fun r => (r.2.size, r.2.buffer.length)))
        = some (2500001, 1048576) := by
    intro B hB
    have t_ext : (RandomCacher.mk B 0 0 0 []).extendBuf 2500001 1 =
        some (RandomCacher.mk (B ++ List.replicate 983040 0) 0 0 0 []) := by
      rw [RandomCacher.extendBuf_grow_head0 (RandomCacher.mk B 0 0 0 []) 2500001 1 rfl
        (by simp [hB]) (by simp [hB, MAX_CACHE_SIZE, INITIAL_CACHE_SIZE])]
      simp [-List.reduceReplicate, hB, MAX_CACHE_SIZE, INITIAL_CACHE_SIZE]
    have t_write : (RandomCacher.mk (B ++ List.replicate 983040 0) 0 0 0 []).writeAt
          2500000 [9] =
        RandomCacher.mk ([9] ++ (B ++ List.replicate 983040 0).drop 1) 0 0 0 [] := by
      have h := RandomCacher.writeAt_far
        (RandomCacher.mk (B ++ List.replicate 983040 0) 0 0 0 [])
        2500000 [9] (by simp [-List.reduceReplicate, hB]) (by norm_num)
      simpa [-List.reduceReplicate] using h
    have t_upd : ∀ B2 : List Nat, (RandomCacher.mk B2 0 0 0 []).updateSize 2500000 1 =
        RandomCacher.mk B2 0 0 2500001 [] := by
      intro B2
      simp [RandomCacher.updateSize, U32_MAX, U32_LIMIT, MAX_U32_WINDOW_SIZE]
    have t_merge : mergeRanges [] 0 2500000 1 = [(2500000, 1)] := by
      simp [mergeRanges, rangesInsert, U32_MAX]
    have t_pop : ∀ B2 : List Nat, (RandomCacher.mk B2 0 0 2500001 [(2500000, 1)]).popReady =
        (none, RandomCacher.mk B2 0 0 2500001 [(2500000, 1)]) := by
      intro B2
      simp [RandomCacher.popReady, U32_LIMIT]
    rw [RandomCacher.append_unfold _ _ _ 2500000 (by norm_num)
      (by norm_num [MAX_U32_WINDOW_SIZE])]
    simp only [List.length_cons, List.length_nil, Nat.reduceAdd]
    rw [t_ext, Option.map_some']
    rw [t_write, t_upd]
    dsimp only
    rw [t_merge, t_pop]
    simp [-List.reduceReplicate, hB]
  exact key _ (List.length_replicate ..)

/-! ## Claim C5: ordered cache round trip -/

def Cacher.appendAll : Cacher → List (List Nat) → Option Cacher
  | c, [] => some c
  | c, d :: rest =>
    match c.append d with
    | none => none
    | some c2 => c2.appendAll rest

def CacherRep (c : Cacher) (bs : List Nat) : Prop :=
  c.head = 0 ∧ c.size = bs.length ∧ bs.length ≤ c.buffer.length ∧
    c.buffer.take bs.length = bs

theorem cacherRep_new (s : Nat) : CacherRep (Cacher.new s) [] :=
  ⟨rfl, rfl, by simp only [List.length_nil]; exact Nat.zero_le _,
    by simp only [List.length_nil, List.take_zero]⟩

theorem writeTail_fits (c : Cacher) (d : List Nat) (h1 : c.head + c.size < c.buffer.length)
    (h2 : d.length ≤ c.buffer.length - (c.head + c.size)) :
    c.writeTail d = { c with buffer := copyInto c.buffer (c.head + c.size) d,
                             size := c.size + d.length } := by
  have hla : min d.length (c.buffer.length - (c.head + c.size)) = d.length := by omega
  simp only [Cacher.writeTail, if_pos h1, hla, List.take_length, Nat.sub_self]
  simp

theorem writeTail_nil (c : Cacher) : c.writeTail [] = c := by
  simp [Cacher.writeTail, copyInto]

theorem take_copyInto_exact (l d : List Nat) (p : Nat) (hp : p ≤ l.length) :
    (copyInto l p d).take (p + d.length) = l.take p ++ d := by
  have hlen : (l.take p).length = p := by simp; omega
  rw [copyInto, show p + d.length = (l.take p).length + d.length from by rw [hlen],
    List.append_assoc, List.take_append, List.take_left' rfl]

theorem cacherRep_writeTail (c : Cacher) (bs d : List Nat) (hc : CacherRep c bs)
    (hd : d.length ≤ c.buffer.length - c.size) :
    CacherRep (c.writeTail d) (bs ++ d) := by
  obtain ⟨h0, hs, hle, ht⟩ := hc
  by_cases hlt : c.head + c.size < c.buffer.length
  · rw [writeTail_fits c d hlt (by omega)]
    have hpos : c.head + c.size = bs.length := by omega
    have hblen : (copyInto c.buffer (c.head + c.size) d).length = c.buffer.length :=
      length_copyInto _ _ _ (by omega)
    refine ⟨h0, ?_, ?_, ?_⟩
    · simp [hs]
    · simp only [List.length_append, hblen]; omega
    · show (copyInto c.buffer (c.head + c.size) d).take (bs ++ d).length = bs ++ d
      rw [List.length_append, show bs.length + d.length = c.head + c.size + d.length from by omega,
        take_copyInto_exact _ _ _ (by omega), hpos, ht]
  · have hbs : bs.length = c.buffer.length := by omega
    have hd0 : d = [] := by
      have : d.length = 0 := by omega
      exact List.eq_nil_of_length_eq_zero this
    subst hd0
    rw [writeTail_nil, List.append_nil]
    exact ⟨h0, hs, hle, ht⟩

theorem extendBuf_success (c : Cacher) (n : Nat) (c2 : Cacher)
    (h : c.extendBuf n = some c2) :
    c.size + n ≤ min (max (c.buffer.length * 2) (c.buffer.length + n)) MAX_CACHE_SIZE := by
  by_cases hbig :
      c.size + n > min (max (c.buffer.length * 2) (c.buffer.length + n)) MAX_CACHE_SIZE
  · rw [Cacher.extendBuf] at h
    simp only [if_pos hbig] at h
    exact absurd h (by simp)
  · omega

theorem extendBuf_rep (c : Cacher) (bs : List Nat) (n : Nat) (hc : CacherRep c bs)
    (c2 : Cacher) (h : c.extendBuf n = some c2) :
    CacherRep c2 bs ∧ bs.length + n ≤ c2.buffer.length := by
  obtain ⟨h0, hs, hle, ht⟩ := hc
  have hok := extendBuf_success c n c2 h
  rw [Cacher.extendBuf] at h
  simp only [if_neg (by omega :
    ¬ c.size + n > min (max (c.buffer.length * 2) (c.buffer.length + n)) MAX_CACHE_SIZE),
    Option.some.injEq] at h
  have hla : min c.size (c.buffer.length - c.head) = bs.length := by omega
  rw [hla, h0, List.drop_zero] at h
  rw [ht] at h
  have hlb : c.size - bs.length = 0 := by omega
  rw [hlb] at h
  simp only [gt_iff_lt, Nat.lt_irrefl, if_false] at h
  rw [copyInto_zero] at h
  subst h
  have hcap : bs.length + n ≤ min (max (c.buffer.length * 2) (c.buffer.length + n))
      MAX_CACHE_SIZE := by omega
  have hlen2 : (bs ++ (List.replicate
        (min (max (c.buffer.length * 2) (c.buffer.length + n)) MAX_CACHE_SIZE) 0).drop
          bs.length).length =
      min (max (c.buffer.length * 2) (c.buffer.length + n)) MAX_CACHE_SIZE := by
    simp only [List.length_append, List.length_drop, List.length_replicate]
    omega
  refine ⟨⟨rfl, hs, ?_, ?_⟩, ?_⟩
  · rw [hlen2]; omega
  · exact List.take_left' rfl
  · rw [hlen2]; omega

theorem cacherRep_append (c : Cacher) (bs d : List Nat) (hc : CacherRep c bs) (c2 : Cacher)
    (h : c.append d = some c2) : CacherRep c2 (bs ++ d) := by
  rw [Cacher.append] at h
  by_cases hg : d.length > c.buffer.length - c.size
  · rw [if_pos hg] at h
    cases he : c.extendBuf d.length with
    | none => rw [he] at h; exact absurd h (by simp)
    | some cm =>
      rw [he] at h
      simp only [Option.some.injEq] at h
      obtain ⟨hrep, hle2⟩ := extendBuf_rep c bs d.length hc cm he
      have hd2 : d.length ≤ cm.buffer.length - cm.size := by
        obtain ⟨-, hs2, -, -⟩ := hrep
        omega
      rw [← h]
      exact cacherRep_writeTail cm bs d hrep hd2
  · rw [if_neg hg] at h
    simp only [Option.some.injEq] at h
    rw [← h]
    obtain ⟨h0, hs, hle, ht⟩ := hc
    exact cacherRep_writeTail c bs d ⟨h0, hs, hle, ht⟩ (by omega)

theorem cacherRep_get (c : Cacher) (bs : List Nat) (hc : CacherRep c bs) (n : Nat)
    (hn : n ≤ c.size) : c.get n = some (bs.take n) := by
  obtain ⟨h0, hs, hle, ht⟩ := hc
  by_cases hz : n = 0
  · subst hz; simp [Cacher.get]
  · rw [Cacher.get, if_neg hz, if_neg (by omega : ¬ c.size < n)]
    have hla : min n (c.buffer.length - 0) = n := Nat.min_eq_left (by omega)
    have htk : (c.buffer.take n).length = n := by
      rw [List.length_take]
      exact Nat.min_eq_left (by omega)
    simp only [hla, h0, List.drop_zero, copyInto_zero, htk, List.drop_replicate,
      Nat.sub_self, List.replicate_zero, List.append_nil, Nat.lt_irrefl, if_false,
      Option.some.injEq]
    rw [← ht, List.take_take, Nat.min_eq_left (by omega : n ≤ bs.length)]

theorem cacherRep_appendAll (c : Cacher) (bs : List Nat) (l : List (List Nat)) (c2 : Cacher)
    (hc : CacherRep c bs) (h : c.appendAll l = some c2) : CacherRep c2 (bs ++ l.flatten) := by
  induction l generalizing c bs with
  | nil =>
    rw [Cacher.appendAll] at h
    simp only [Option.some.injEq] at h
    rw [← h, List.flatten_nil, List.append_nil]
    exact hc
  | cons d rest ih =>
    rw [Cacher.appendAll] at h
    cases he : c.append d with
    | none => rw [he] at h; exact absurd h (by simp)
    | some cm =>
      rw [he] at h
      have h2 := ih cm (bs ++ d) (cacherRep_append c bs d hc cm he) h
      rwa [List.flatten_cons, ← List.append_assoc]

/-- The state of the linear cache after create(0) and append("hello"). -/
def c5State : Cacher :=
  Cacher.mk ([104, 101, 108, 108, 111] ++ (List.replicate 65536 0).drop 5) 0 0 5

/-- C5 counterexample: create(0); append "ab"; invalidateTo(1); append "cd";
then 2 bytes are held beyond the 3 currently stored, and get(2) returns
"bc" (the residual byte "b" followed by "c"), not the first 2 bytes "cd"
of what was appended since the invalidateTo, so the claim as stated fails
once an invalidateTo leaves residual bytes. -/
theorem c5_counterexample :
    (((Cacher.new 0).append [97, 98]).bind
        (fun c1 => ((c1.invalidate_to 1).append [99, 100]).bind
          (fun c3 => c3.get 2)))
      = some [98, 99] ∧ some [98, 99] ≠ some (List.take 2 [99, 100]) := by
  refine ⟨?_, by simp⟩
  have key : ∀ B : List Nat, B.length = 65536 →
      (((Cacher.mk B 0 0 0).append [97, 98]).bind
        (fun c1 => ((c1.invalidate_to 1).append [99, 100]).bind
          (fun c3 => c3.get 2)))
        = some [98, 99] := by
    intro B hB
    have hB1 : ([97, 98] ++ B.drop 2).length = 65536 := by simp [hB]
    rw [Cacher.append_fresh B 0 [97, 98] hB (by norm_num)]
    simp only [List.length_cons, List.length_nil, Nat.reduceAdd, Option.some_bind]
    have t_inv : (Cacher.mk ([97, 98] ++ B.drop 2) 0 0 2).invalidate_to 1 =
        Cacher.mk ([97, 98] ++ B.drop 2) 1 1 1 := by
      simp [Cacher.invalidate_to, U32_MAX, MAX_U32_WINDOW_SIZE, hB]
    rw [t_inv]
    have t_app2 : (Cacher.mk ([97, 98] ++ B.drop 2) 1 1 1).append [99, 100] =
        some (Cacher.mk (copyInto ([97, 98] ++ B.drop 2) 2 [99, 100]) 1 1 3) := by
      simp [Cacher.append, Cacher.writeTail, copyInto, hB]
    rw [t_app2, Option.some_bind]
    have t_get : (Cacher.mk (copyInto ([97, 98] ++ B.drop 2) 2 [99, 100]) 1 1 3).get 2 =
        some [98, 99] := by
      simp [Cacher.get, copyInto, hB]
    rw [t_get]
  exact key _ (List.length_replicate ..)

/-- C5 (amended): for every sequence of successful append calls starting
from a freshly created Ordered Cache, and every n not exceeding the bytes
held, get(n) returns exactly the first n bytes of the concatenation of
everything appended, in append order, regardless of intervening capacity
growth (no ring wraparound occurs in this regime), and the held size is
the total appended length. -/
theorem c5_round_trip_amended (s : Nat) (l : List (List Nat)) (c2 : Cacher)
    (h : Cacher.appendAll (Cacher.new s) l = some c2) :
    c2.size = l.flatten.length ∧
      ∀ n, n ≤ c2.size → c2.get n = some (l.flatten.take n) := by
  have hrep := cacherRep_appendAll (Cacher.new s) [] l c2 (cacherRep_new s) h
  rw [List.nil_append] at hrep
  exact ⟨hrep.2.1, fun n hn => cacherRep_get c2 l.flatten hrep n hn⟩


theorem appendAll_nil (c : Cacher) : c.appendAll [] = some c := rfl

theorem appendAll_cons (c : Cacher) (d : List Nat) (rest : List (List Nat)) :
    c.appendAll (d :: rest) =
      match c.append d with
      | none => none
      | some c2 => c2.appendAll rest := rfl

/-- Witness for C5 at the concrete scenario of the claim: create(0);
append("hello") gives getSize() = 5 and get(5) = "hello". -/
theorem c5_round_trip_witness :
    Cacher.appendAll (Cacher.new 0) [[104, 101, 108, 108, 111]] = some c5State ∧
      c5State.size = 5 ∧ c5State.get 5 = some [104, 101, 108, 108, 111] := by
  have h : Cacher.appendAll (Cacher.new 0) [[104, 101, 108, 108, 111]] = some c5State := by
    rw [show Cacher.new 0 = Cacher.mk (List.replicate 65536 0) 0 0 0 from rfl,
      appendAll_cons, Cacher.append_fresh _ _ _ (List.length_replicate ..) (by norm_num)]
    dsimp only
    rw [appendAll_nil]
    rfl
  refine ⟨h, ?_, ?_⟩
  · have h1 := (c5_round_trip_amended 0 _ _ h).1
    simpa using h1
  · have h2 := (c5_round_trip_amended 0 _ _ h).2 5 (Nat.le_refl 5)
    simpa using h2

/-! ## Claim C8: ordered cache growth policy -/

theorem extendBuf_none_iff (c : Cacher) (n : Nat) :
    c.extendBuf n = none ↔
      c.size + n > min (max (c.buffer.length * 2) (c.buffer.length + n)) MAX_CACHE_SIZE := by
  rw [Cacher.extendBuf]
  by_cases h : c.size + n >
      min (max (c.buffer.length * 2) (c.buffer.length + n)) MAX_CACHE_SIZE
  · simp [h]
  · simp [h]

theorem take_size_copyInto (l d : List Nat) (p sz : Nat) (hp : p ≤ l.length)
    (hsz : sz = p + d.length) :
    (copyInto l p d).take sz = l.take p ++ d := by
  rw [hsz, take_copyInto_exact _ _ _ hp]

theorem heldBytes_wrap (c : Cacher) (h1 : c.size ≤ c.buffer.length)
    (hw : c.buffer.length - c.head ≤ c.size) :
    heldBytes c =
      c.buffer.drop c.head ++ c.buffer.take (c.size - (c.buffer.length - c.head)) := by
  rw [heldBytes, List.take_append_eq_append_take]
  congr 1
  · exact List.take_of_length_le (by rw [List.length_drop]; omega)
  · rw [List.length_drop, List.take_take, Nat.min_eq_left (by omega)]

theorem heldBytes_nowrap (c : Cacher) (hw : c.size ≤ c.buffer.length - c.head) :
    heldBytes c = (c.buffer.drop c.head).take c.size := by
  rw [heldBytes, List.take_append_of_le_length (by rw [List.length_drop]; omega)]

theorem extendBuf_some (c : Cacher) (n : Nat) (c2 : Cacher)
    (h1 : c.size ≤ c.buffer.length) (h3 : c.head ≤ c.buffer.length)
    (h : c.extendBuf n = some c2) :
    c2.buffer.length =
        min (max (c.buffer.length * 2) (c.buffer.length + n)) MAX_CACHE_SIZE ∧
      c2.head = 0 ∧ c2.size = c.size ∧ c2.sequence = c.sequence ∧
      c2.buffer.take c2.size = heldBytes c := by
  have hok := extendBuf_success c n c2 h
  rw [Cacher.extendBuf] at h
  simp only [if_neg (by omega :
    ¬ c.size + n > min (max (c.buffer.length * 2) (c.buffer.length + n)) MAX_CACHE_SIZE),
    Option.some.injEq] at h
  set N := min (max (c.buffer.length * 2) (c.buffer.length + n)) MAX_CACHE_SIZE with hN
  set la := min c.size (c.buffer.length - c.head) with hla
  have hlaA : ((c.buffer.drop c.head).take la).length = la := by
    rw [List.length_take, List.length_drop]
    omega
  have hdl : (c.buffer.drop c.head).length = c.buffer.length - c.head := List.length_drop ..
  rw [copyInto_zero, hlaA] at h
  by_cases hlb : c.size - la > 0
  · -- wrapped contents: two copy segments
    have hla2 : la = c.buffer.length - c.head := by omega
    rw [if_pos hlb] at h
    subst h
    refine ⟨?_, rfl, rfl, rfl, ?_⟩
    · rw [length_copyInto _ _ _ (by
        rw [List.length_take, List.length_append, hlaA, List.length_drop,
          List.length_replicate]
        omega)]
      rw [List.length_append, hlaA, List.length_drop, List.length_replicate]
      omega
    · show (copyInto ((c.buffer.drop c.head).take la ++ (List.replicate N 0).drop la) la
        (c.buffer.take (c.size - la))).take c.size = heldBytes c
      have hBlen : (c.buffer.take (c.size - la)).length = c.size - la := by
        rw [List.length_take]
        omega
      rw [take_size_copyInto _ _ _ _ (by rw [List.length_append, hlaA]; omega)
        (by rw [hBlen]; omega)]
      rw [List.take_append_eq_append_take, hlaA, Nat.sub_self, List.take_zero,
        List.append_nil, List.take_take, Nat.min_eq_left (Nat.le_refl la)]
      rw [heldBytes_wrap c h1 (by omega), ← hla2]
      congr 1
      exact List.take_of_length_le (by rw [hdl]; omega)
  · -- contents in one segment
    have hla2 : la = c.size := by omega
    rw [if_neg hlb] at h
    subst h
    refine ⟨?_, rfl, rfl, rfl, ?_⟩
    · rw [List.length_append, hlaA, List.length_drop, List.length_replicate]
      omega
    · show ((c.buffer.drop c.head).take la ++ (List.replicate N 0).drop la).take c.size =
        heldBytes c
      rw [← hla2, List.take_append_eq_append_take, hlaA, Nat.sub_self, List.take_zero,
        List.append_nil, List.take_take, Nat.min_eq_left (Nat.le_refl la)]
      rw [heldBytes_nowrap c (by omega), hla2]

/-- C8: whenever Cacher::append needs more room than the free space, the
call fails exactly when held size + new bytes exceed the capped capacity
min(max(2 x capacity, capacity + needed), maximum) (the model returns
none without producing any mutated state, matching the early Err return
of the source), and on a successful growth the fresh ring has exactly the
capped capacity, the capacity never shrinks, head is normalized to 0, and
the held bytes are preserved (copied in at most two segments). -/
theorem c8_growth_policy (c : Cacher) (data : List Nat)
    (h1 : c.size ≤ c.buffer.length) (h2 : c.buffer.length ≤ MAX_CACHE_SIZE)
    (h3 : c.head ≤ c.buffer.length) :
    (c.append data = none ↔
      data.length > c.buffer.length - c.size ∧
        c.size + data.length >
          min (max (c.buffer.length * 2) (c.buffer.length + data.length))
            MAX_CACHE_SIZE) ∧
    (∀ c2, c.extendBuf data.length = some c2 →
      c2.buffer.length =
          min (max (c.buffer.length * 2) (c.buffer.length + data.length))
            MAX_CACHE_SIZE ∧
        c.buffer.length ≤ c2.buffer.length ∧
        c2.head = 0 ∧ c2.size = c.size ∧ c2.sequence = c.sequence ∧
        c2.buffer.take c2.size = heldBytes c) := by
  constructor
  · by_cases hg : data.length > c.buffer.length - c.size
    · rw [Cacher.append, if_pos hg]
      cases he : c.extendBuf data.length with
      | none =>
        simp only [he]
        simp [hg, (extendBuf_none_iff c data.length).mp he]
      | some cm =>
        simp only [he]
        have hx : ¬ (c.size + data.length >
            min (max (c.buffer.length * 2) (c.buffer.length + data.length))
              MAX_CACHE_SIZE) := by
          intro hcon
          rw [(extendBuf_none_iff c data.length).mpr hcon] at he
          exact Option.noConfusion he
        simp [hx]
    · rw [Cacher.append, if_neg hg]
      simp [hg]
  · intro c2 he
    obtain ⟨hlen, hhead, hsize, hseq, hcont⟩ := extendBuf_some c data.length c2 h1 h3 he
    refine ⟨hlen, ?_, hhead, hsize, hseq, hcont⟩
    rw [hlen]
    omega

/-- Witness for C8 at a concrete input: a fresh cache (65536 capacity,
empty) receives 100000 bytes; growth is needed, the capped capacity
165536 accommodates 0 + 100000, so the append does not fail. -/
theorem c8_growth_policy_witness :
    ¬ ((Cacher.new 0).append (List.replicate 100000 1) = none) := by
  have h1 : (Cacher.new 0).size ≤ (Cacher.new 0).buffer.length := Nat.zero_le _
  have h2 : (Cacher.new 0).buffer.length ≤ MAX_CACHE_SIZE := by
    rw [show (Cacher.new 0).buffer = List.replicate 65536 0 from rfl,
      List.length_replicate]
    norm_num [MAX_CACHE_SIZE, INITIAL_CACHE_SIZE]
  have h3 : (Cacher.new 0).head ≤ (Cacher.new 0).buffer.length := Nat.zero_le _
  have h := (c8_growth_policy (Cacher.new 0) (List.replicate 100000 1) h1 h2 h3).1
  intro hnone
  have hc := (h.mp hnone).2
  rw [show (Cacher.new 0).buffer = List.replicate 65536 0 from rfl,
    show (Cacher.new 0).size = 0 from rfl, List.length_replicate,
    List.length_replicate] at hc
  norm_num [MAX_CACHE_SIZE, INITIAL_CACHE_SIZE] at hc
